import Mathlib

/-!
Shallow embedding of the `edge-cors` CORS engine (`src/cors.ts`).

Modelling decisions:
* Web `Headers` objects are modelled as a list of `(name, value)` entries with
  names normalized to ASCII lowercase on every write (`set`/`append`), matching
  the fetch `Headers` behaviour; `get` joins all values for a name with a
  comma-space separator, exactly as the web `Headers.get` does.
* `Headers.forEach` passes each (name, combined value) pair; every header set
  built by the engine's helpers contains at most one entry per name, so
  iterating over the raw entry list (`mergeHeaderList`) is observationally
  identical.
* A JS `RegExp` is modelled abstractly by its `test` method, a function
  `String → Bool`.
* An asynchronous origin function is modelled as a pure function; the engine
  only awaits its value.
* JS truthiness is translated case by case: for `StaticOrigin` only `false`
  and the empty string are falsy; arrays and RegExp objects are always truthy.
* `undefined` optional fields are `Option.none`; the object spread
  `{ ...defaultOptions, ...options }` becomes a field-wise right-biased merge.
* Since the input response's headers are mutated in place and the function
  either returns that same response object or a freshly constructed one, the
  result type `CorsResult` distinguishes `sameRes` (the input object, with its
  final header collection) from `newRes` (a new `Response(null, ...)`).
-/

set_option autoImplicit false

namespace EdgeCors

/-- ASCII lower-casing of a single character, as applied by the fetch
`Headers` class to header names. -/
def lowerChar (c : Char) : Char :=
  if 65 ≤ c.toNat ∧ c.toNat ≤ 90 then Char.ofNat (c.toNat + 32) else c

/-- ASCII lower-casing of a header name. -/
def lowerName (s : String) : String := String.mk (s.data.map lowerChar)

/-- The web `Headers` class: an ordered multi-map from lowercased names to
values. -/
structure Headers where
  entries : List (String × String)
deriving DecidableEq, Repr

def Headers.empty : Headers := ⟨[]⟩

/-- All values stored under `name` (case-insensitively), in order. -/
def Headers.getValues (h : Headers) (name : String) : List String :=
  (h.entries.filter (fun e => e.1 == lowerName name)).map Prod.snd

/-- The comma-space join that `Headers.get` applies to multiple values. -/
def joinVals : List String → String
  | [] => ""
  | [v] => v
  | v :: vs => v ++ ", " ++ joinVals vs

/-- Model of `Headers.get`: `null` when the name is absent, otherwise the
values joined with a comma and a space. -/
def Headers.get (h : Headers) (name : String) : Option String :=
  match h.getValues name with
  | [] => none
  | vs => some (joinVals vs)

/-- Model of `Headers.set`: drop every entry for the name, then store the
new value. -/
def Headers.set (h : Headers) (name v : String) : Headers :=
  ⟨(h.entries.filter (fun e => !(e.1 == lowerName name))) ++ [(lowerName name, v)]⟩

/-- Model of `Headers.append`: add one more entry for the name, keeping
existing ones. -/
def Headers.append (h : Headers) (name v : String) : Headers :=
  ⟨h.entries ++ [(lowerName name, v)]⟩

/-- An HTTP request: a method and a read-only header collection. -/
structure Request where
  method : String
  headers : Headers

/-- An HTTP response: a status, a mutable header collection and a body. -/
structure Response where
  status : Int
  headers : Headers
  body : Option String
deriving DecidableEq, Repr

/-- One element of a `StaticOrigin` array: `boolean | string | RegExp`. -/
inductive OriginElem where
  | bool (b : Bool)
  | str (s : String)
  | regexp (test : String → Bool)

/-- Model of `type StaticOrigin = boolean | string | RegExp | (boolean | string | RegExp)[]`. -/
inductive StaticOrigin where
  | bool (b : Bool)
  | str (s : String)
  | regexp (test : String → Bool)
  | list (l : List OriginElem)

/-- The `origin` option: a static value or an (async) function of the request
origin and the request. -/
inductive OriginConfig where
  | static (o : StaticOrigin)
  | fn (f : Option String → Request → StaticOrigin)

/-- A `string | string[]` configuration value. -/
inductive StrOrList where
  | str (s : String)
  | list (l : List String)
deriving DecidableEq, Repr

/-- Model of `CorsOptions`; `none` models an absent (`undefined`) field. -/
structure CorsOptions where
  origin : Option OriginConfig := none
  methods : Option StrOrList := none
  allowedHeaders : Option StrOrList := none
  exposedHeaders : Option StrOrList := none
  credentials : Option Bool := none
  maxAge : Option Int := none
  preflightContinue : Option Bool := none
  optionsSuccessStatus : Option Int := none

/-- The `defaultOptions` object from the source. -/
def defaultOptions : CorsOptions :=
  { origin := some (OriginConfig.static (StaticOrigin.str "*"))
    methods := some (StrOrList.str "GET,HEAD,PUT,PATCH,POST,DELETE")
    preflightContinue := some false
    optionsSuccessStatus := some 204 }

/-- Right-biased field choice, as the object spread does per key. -/
def orDefault {α : Type} (caller dflt : Option α) : Option α :=
  match caller with
  | some x => some x
  | none => dflt

/-- The spread `const opts` merge from the source: a fresh working copy,
caller-supplied fields over the documented defaults. -/
def mergeOpts : Option CorsOptions → CorsOptions
  | none => defaultOptions
  | some o =>
    { origin := orDefault o.origin defaultOptions.origin
      methods := orDefault o.methods defaultOptions.methods
      allowedHeaders := orDefault o.allowedHeaders defaultOptions.allowedHeaders
      exposedHeaders := orDefault o.exposedHeaders defaultOptions.exposedHeaders
      credentials := orDefault o.credentials defaultOptions.credentials
      maxAge := orDefault o.maxAge defaultOptions.maxAge
      preflightContinue := orDefault o.preflightContinue defaultOptions.preflightContinue
      optionsSuccessStatus := orDefault o.optionsSuccessStatus defaultOptions.optionsSuccessStatus }

/-- Truthiness of one array element (`boolean | string | RegExp`). -/
def isOriginAllowedElem (origin : String) : OriginElem → Bool
  | OriginElem.str s => origin == s
  | OriginElem.regexp t => t origin
  | OriginElem.bool b => b

/-- The function `isOriginAllowed` from the source: arrays are a recursive
`some`, strings compare with `===`, RegExps use `test`, anything else is
coerced with `!!`. -/
def isOriginAllowed (origin : String) : StaticOrigin → Bool
  | StaticOrigin.list l => l.any (isOriginAllowedElem origin)
  | StaticOrigin.str s => origin == s
  | StaticOrigin.regexp t => t origin
  | StaticOrigin.bool b => b

/-- JS truthiness of a `string | undefined` request origin. -/
def strOptTruthy : Option String → Bool
  | none => false
  | some s => !(s == "")

/-- The function `getOriginHeaders` from the source. -/
def getOriginHeaders (reqOrigin : Option String) (origin : StaticOrigin) : Headers :=
  let headers := Headers.empty
  match origin with
  | StaticOrigin.str s =>
    if s == "*" then
      -- Allow any origin
      headers.set "Access-Control-Allow-Origin" "*"
    else
      -- Fixed origin
      (headers.set "Access-Control-Allow-Origin" s).append "Vary" "Origin"
  | o =>
    let allowed := isOriginAllowed (reqOrigin.getD "") o
    let h1 :=
      if allowed && strOptTruthy reqOrigin then
        headers.set "Access-Control-Allow-Origin" (reqOrigin.getD "")
      else headers
    h1.append "Vary" "Origin"

/-- Truthiness of a resolved `StaticOrigin`: only `false` and the empty
string are falsy (arrays and RegExp objects are always truthy). -/
def staticOriginFalsy : StaticOrigin → Bool
  | StaticOrigin.bool b => !b
  | StaticOrigin.str s => s == ""
  | StaticOrigin.regexp _ => false
  | StaticOrigin.list _ => false

/-- The request origin: the `Origin` request header, with the empty string
and absence both mapped to `undefined` by the source. -/
def reqOriginOf (req : Request) : Option String :=
  match req.headers.get "Origin" with
  | none => none
  | some s => if s == "" then none else some s

/-- The resolved origin value: an origin function is awaited, a static value
is used as-is. -/
def resolveOrigin (req : Request) : OriginConfig → StaticOrigin
  | OriginConfig.static o => o
  | OriginConfig.fn f => f (reqOriginOf req) req

/-- The function `originHeadersFromReq` from the source: `undefined` when
the resolved value is falsy, otherwise the computed origin headers. -/
def originHeadersFromReq (req : Request) (origin : OriginConfig) : Option Headers :=
  let reqOrigin := reqOriginOf req
  let value := resolveOrigin req origin
  if staticOriginFalsy value then none
  else some (getOriginHeaders reqOrigin value)

/-- The function `getAllowedHeaders` from the source. The first branch is
guarded by a falsy check that excludes the string type, which holds exactly
for an absent value (arrays are always truthy, and strings are excluded). -/
def getAllowedHeaders (req : Request) (allowed : Option StrOrList) : Headers :=
  match allowed with
  | none =>
    let headers := Headers.empty.append "Vary" "Access-Control-Request-Headers"
    match req.headers.get "Access-Control-Request-Headers" with
    | none => headers
    | some v => if v == "" then headers else headers.set "Access-Control-Allow-Headers" v
  | some (StrOrList.str s) =>
    if s == "" then Headers.empty
    else Headers.empty.set "Access-Control-Allow-Headers" s
  | some (StrOrList.list l) =>
    let s := String.intercalate "," l
    if s == "" then Headers.empty
    else Headers.empty.set "Access-Control-Allow-Headers" s

/-- The `mergeHeaders` closure from `cors`: the `vary` header is appended,
every other header is set. `Headers.forEach` always supplies the lowercased
name. -/
def mergeHeader (hs : Headers) (k v : String) : Headers :=
  if k == "vary" then hs.append k v else hs.set k v

/-- A fold of the merge closure over a header set, modelling the
`forEach(mergeHeaders)` calls. -/
def mergeHeaderList (target : Headers) : List (String × String) → Headers
  | [] => target
  | e :: es => mergeHeaderList (mergeHeader target e.1 e.2) es

/-- The result of `cors`: either the same response object that was passed in
(whose header collection now holds the given entries), or a newly constructed
`Response(null, { status, headers })`. -/
inductive CorsResult where
  | sameRes (headers : Headers)
  | newRes (status : Int) (headers : Headers)
deriving DecidableEq, Repr

/-- The response the caller observes: `sameRes` keeps the input response's
status and body with the final header collection; `newRes` is a fresh
response with a `null` body. -/
def CorsResult.finalResponse (res : Response) : CorsResult → Response
  | CorsResult.sameRes h => { res with headers := h }
  | CorsResult.newRes st h => { status := st, headers := h, body := none }

/-- The credentials step: when `opts.credentials` is truthy, the header
`Access-Control-Allow-Credentials` is set to the literal string `true`. -/
def applyCredentials (opts : CorsOptions) (headers : Headers) : Headers :=
  if opts.credentials.getD false then
    headers.set "Access-Control-Allow-Credentials" "true"
  else headers

/-- The `exposedHeaders` step: join arrays with a comma, set the header when
the resulting value is truthy. -/
def applyExposed (opts : CorsOptions) (headers : Headers) : Headers :=
  match opts.exposedHeaders with
  | none => headers
  | some (StrOrList.str s) =>
    if s == "" then headers else headers.set "Access-Control-Expose-Headers" s
  | some (StrOrList.list l) =>
    let e := String.intercalate "," l
    if e == "" then headers else headers.set "Access-Control-Expose-Headers" e

/-- The `opts.methods` step of the preflight branch (`if (opts.methods)` is a
truthiness check: absent and the empty string are falsy, arrays are always
truthy). -/
def applyMethods (opts : CorsOptions) (headers : Headers) : Headers :=
  match opts.methods with
  | none => headers
  | some (StrOrList.str s) =>
    if s == "" then headers else headers.set "Access-Control-Allow-Methods" s
  | some (StrOrList.list l) =>
    headers.set "Access-Control-Allow-Methods" (String.intercalate "," l)

/-- The max-age step: when `opts.maxAge` is a number (a definedness check,
not truthiness), `Access-Control-Max-Age` is set to its decimal string. -/
def applyMaxAge (opts : CorsOptions) (headers : Headers) : Headers :=
  match opts.maxAge with
  | none => headers
  | some n => headers.set "Access-Control-Max-Age" (toString n)

/-- The body of `cors` after the option merge. -/
def corsMerged (req : Request) (res : Response) (opts : CorsOptions) : CorsResult :=
  match originHeadersFromReq req
      (opts.origin.getD (OriginConfig.static (StaticOrigin.bool false))) with
  | none => CorsResult.sameRes res.headers
  | some originHeaders =>
    let h1 := mergeHeaderList res.headers originHeaders.entries
    let h2 := applyCredentials opts h1
    let h3 := applyExposed opts h2
    if req.method == "OPTIONS" then
      let h4 := applyMethods opts h3
      let h5 := mergeHeaderList h4 (getAllowedHeaders req opts.allowedHeaders).entries
      let h6 := applyMaxAge opts h5
      if opts.preflightContinue.getD false then CorsResult.sameRes h6
      else CorsResult.newRes (opts.optionsSuccessStatus.getD 200)
        (h6.set "Content-Length" "0")
    else CorsResult.sameRes h3

/-- The function `cors` from the source. -/
def cors (req : Request) (res : Response) (options : Option CorsOptions) : CorsResult :=
  corsMerged req res (mergeOpts options)

/-- A concrete preflight request with no headers. -/
def reqOptionsPlain : Request := { method := "OPTIONS", headers := Headers.empty }

/-- A concrete preflight request carrying `Access-Control-Request-Headers`. -/
def reqAcrh : Request :=
  { method := "OPTIONS"
    headers := Headers.empty.append "Access-Control-Request-Headers" "X-Foo" }

/-- A concrete bare response. -/
def resPlain : Response := { status := 200, headers := Headers.empty, body := none }

/-- A configuration that disables CORS via `origin: false`. -/
def falsyOriginOpts : CorsOptions :=
  { origin := some (OriginConfig.static (StaticOrigin.bool false)) }

/-- A configuration carrying only `maxAge: 600`. -/
def maxAgeOpts : CorsOptions := { maxAge := some 600 }

/-- A configuration carrying only `maxAge: 0`. -/
def maxAgeZeroOpts : CorsOptions := { maxAge := some 0 }

/-- A concrete GET request carrying an `Origin` header, used in closed
instances below. -/
def reqGetA : Request :=
  { method := "GET", headers := Headers.empty.append "Origin" "https://a.com" }

/-- A concrete response with a pre-existing `Vary: Foo` header and a body. -/
def resVaryFoo : Response :=
  { status := 200, headers := Headers.empty.set "Vary" "Foo", body := some "x" }

/-- A configuration with a fixed string origin. -/
def fixedOriginOpts : CorsOptions :=
  { origin := some (OriginConfig.static (StaticOrigin.str "https://a.com")) }

/-- The function `initCors` from the source: a middleware closure pre-bound
to one configuration. -/
def initCors (options : Option CorsOptions) : Request → Response → CorsResult :=
  fun req res => cors req res options

/-- The header collection accumulated by `cors` before the preflight branch:
origin headers merged into the response's headers, then credentials, then
exposed headers. -/
def corsBaseHeaders (res : Response) (opts : CorsOptions) (oh : Headers) : Headers :=
  applyExposed opts (applyCredentials opts (mergeHeaderList res.headers oh.entries))

/-- The header collection accumulated by `cors` at the end of the preflight
branch: methods, then allowed headers, then max-age on top of the base. -/
def corsPreflightHeaders (req : Request) (res : Response) (opts : CorsOptions)
    (oh : Headers) : Headers :=
  applyMaxAge opts
    (mergeHeaderList (applyMethods opts (corsBaseHeaders res opts oh))
      (getAllowedHeaders req opts.allowedHeaders).entries)


theorem getValues_set_self (h : Headers) (n v : String) :
    (h.set n v).getValues n = [v] := by
  obtain ⟨l⟩ := h
  simp only [Headers.set, Headers.getValues, List.filter_append, List.map_append,
    List.filter_filter]
  have h1 : ∀ a ∈ l, ((a.1 == lowerName n) && !(a.1 == lowerName n)) = false := by
    intro a _
    by_cases hc : a.1 == lowerName n <;> simp [hc]
  rw [List.filter_congr h1]
  simp

theorem getValues_set_ne (h : Headers) (n v n' : String)
    (hne : lowerName n' ≠ lowerName n) :
    (h.set n v).getValues n' = h.getValues n' := by
  obtain ⟨l⟩ := h
  simp only [Headers.set, Headers.getValues, List.filter_append, List.map_append,
    List.filter_filter]
  have h1 : ∀ a ∈ l, ((a.1 == lowerName n') && !(a.1 == lowerName n)) = (a.1 == lowerName n') := by
    intro a _
    by_cases hc : a.1 == lowerName n'
    · have hd : (a.1 == lowerName n) = false := by
        rw [beq_eq_false_iff_ne]
        rw [beq_iff_eq] at hc
        rw [hc]
        exact hne
      simp [hc, hd]
    · simp [hc]
  rw [List.filter_congr h1]
  have h2 : ((lowerName n, v).1 == lowerName n') = false := by
    rw [beq_eq_false_iff_ne]
    exact fun hx => hne hx.symm
  simp [h2]

theorem getValues_append_self (h : Headers) (n v : String) :
    (h.append n v).getValues n = h.getValues n ++ [v] := by
  obtain ⟨l⟩ := h
  simp [Headers.append, Headers.getValues, List.filter_append]

theorem getValues_append_ne (h : Headers) (n v n' : String)
    (hne : lowerName n' ≠ lowerName n) :
    (h.append n v).getValues n' = h.getValues n' := by
  obtain ⟨l⟩ := h
  have h2 : ((lowerName n, v).1 == lowerName n') = false := by
    rw [beq_eq_false_iff_ne]
    exact fun hx => hne hx.symm
  simp [Headers.append, Headers.getValues, List.filter_append, h2]

theorem get_set_self (h : Headers) (n v : String) :
    (h.set n v).get n = some v := by
  rw [Headers.get, getValues_set_self]
  rfl

theorem lowerName_vary : lowerName "Vary" = "vary" := by decide

theorem lowerName_origin : lowerName "Origin" = "origin" := by decide

theorem lowerName_acao :
    lowerName "Access-Control-Allow-Origin" = "access-control-allow-origin" := by decide

theorem lowerName_acrh :
    lowerName "Access-Control-Request-Headers" = "access-control-request-headers" := by decide

theorem lowerName_acah :
    lowerName "Access-Control-Allow-Headers" = "access-control-allow-headers" := by decide

theorem lowerName_acac :
    lowerName "Access-Control-Allow-Credentials" = "access-control-allow-credentials" := by decide

theorem lowerName_aceh :
    lowerName "Access-Control-Expose-Headers" = "access-control-expose-headers" := by decide

theorem lowerName_acam :
    lowerName "Access-Control-Allow-Methods" = "access-control-allow-methods" := by decide

theorem lowerName_acma :
    lowerName "Access-Control-Max-Age" = "access-control-max-age" := by decide

theorem lowerName_cl : lowerName "Content-Length" = "content-length" := by decide

theorem lowerName_lower_vary : lowerName "vary" = "vary" := by decide

/-- A `mergeHeader` step with a key differing (case-insensitively) from `n`
leaves the values stored under `n` unchanged. -/
theorem mergeHeader_getValues_ne (hs : Headers) (k v n : String)
    (hne : lowerName n ≠ lowerName k) :
    (mergeHeader hs k v).getValues n = hs.getValues n := by
  rw [mergeHeader]
  by_cases hk : k == "vary"
  · simp only [hk, if_pos]
    exact getValues_append_ne hs k v n hne
  · simp only [hk, if_neg, Bool.false_eq_true, not_false_iff]
    exact getValues_set_ne hs k v n hne

/-- Folding `mergeHeaders` over entries whose keys all differ from `n` leaves
the values stored under `n` unchanged. -/
theorem mergeHeaderList_getValues_ne (es : List (String × String)) (target : Headers)
    (n : String) (hk : ∀ e ∈ es, lowerName n ≠ lowerName e.1) :
    (mergeHeaderList target es).getValues n = target.getValues n := by
  induction es generalizing target with
  | nil => rfl
  | cons e es ih =>
    rw [mergeHeaderList]
    rw [ih (mergeHeader target e.1 e.2) (fun x hx => hk x (List.mem_cons_of_mem e hx))]
    exact mergeHeader_getValues_ne target e.1 e.2 n (hk e (List.mem_cons_self e es))

/-- Every entry produced by `getOriginHeaders` is stored under
`access-control-allow-origin` or `vary`. -/
theorem getOriginHeaders_keys (ro : Option String) (o : StaticOrigin) :
    ∀ e ∈ (getOriginHeaders ro o).entries,
      e.1 = "access-control-allow-origin" ∨ e.1 = "vary" := by
  intro e he
  cases o with
  | str s =>
    by_cases hs : s == "*"
    · simp [getOriginHeaders, hs, Headers.set, Headers.empty, lowerName_acao] at he
      simp [he]
    · simp [getOriginHeaders, hs, Headers.set, Headers.append, Headers.empty,
        lowerName_acao, lowerName_vary] at he
      rcases he with h | h <;> simp [h]
  | bool b =>
    by_cases hc : isOriginAllowed (ro.getD "") (StaticOrigin.bool b) && strOptTruthy ro <;>
      simp [getOriginHeaders, hc, Headers.set, Headers.append, Headers.empty,
        lowerName_acao, lowerName_vary] at he <;>
      first
      | (rcases he with h | h <;> simp [h])
      | simp [he]
  | regexp t =>
    by_cases hc : isOriginAllowed (ro.getD "") (StaticOrigin.regexp t) && strOptTruthy ro <;>
      simp [getOriginHeaders, hc, Headers.set, Headers.append, Headers.empty,
        lowerName_acao, lowerName_vary] at he <;>
      first
      | (rcases he with h | h <;> simp [h])
      | simp [he]
  | list l =>
    by_cases hc : isOriginAllowed (ro.getD "") (StaticOrigin.list l) && strOptTruthy ro <;>
      simp [getOriginHeaders, hc, Headers.set, Headers.append, Headers.empty,
        lowerName_acao, lowerName_vary] at he <;>
      first
      | (rcases he with h | h <;> simp [h])
      | simp [he]

/-- Every entry produced by `getAllowedHeaders` is stored under `vary` or
`access-control-allow-headers`. -/
theorem getAllowedHeaders_keys (req : Request) (allowed : Option StrOrList) :
    ∀ e ∈ (getAllowedHeaders req allowed).entries,
      e.1 = "vary" ∨ e.1 = "access-control-allow-headers" := by
  intro e he
  cases allowed with
  | none =>
    rw [getAllowedHeaders] at he
    cases hg : req.headers.get "Access-Control-Request-Headers" with
    | none =>
      simp [hg, Headers.append, Headers.empty, lowerName_acrh, lowerName_vary] at he
      simp [he]
    | some v =>
      by_cases hv : v == "" <;>
        simp [hg, hv, Headers.set, Headers.append, Headers.empty, lowerName_acrh,
          lowerName_acah, lowerName_vary] at he
      · simp [he]
      · rcases he with h | h <;> simp [h]
  | some sl =>
    cases sl with
    | str s =>
      by_cases hs : s == "" <;>
        simp [getAllowedHeaders, hs, Headers.set, Headers.empty, lowerName_acah] at he
      simp [he]
    | list l =>
      by_cases hs : String.intercalate "," l == "" <;>
        simp [getAllowedHeaders, hs, Headers.set, Headers.empty, lowerName_acah] at he
      simp [he]

/-- The credentials step only ever touches `access-control-allow-credentials`. -/
theorem applyCredentials_getValues_ne (opts : CorsOptions) (h : Headers) (n : String)
    (hne : lowerName n ≠ "access-control-allow-credentials") :
    (applyCredentials opts h).getValues n = h.getValues n := by
  rw [applyCredentials]
  by_cases hc : opts.credentials.getD false
  · rw [if_pos hc]
    exact getValues_set_ne h _ _ n (by rw [lowerName_acac]; exact hne)
  · rw [if_neg hc]

/-- The exposed-headers step only ever touches `access-control-expose-headers`. -/
theorem applyExposed_getValues_ne (opts : CorsOptions) (h : Headers) (n : String)
    (hne : lowerName n ≠ "access-control-expose-headers") :
    (applyExposed opts h).getValues n = h.getValues n := by
  rw [applyExposed]
  have hx : lowerName n ≠ lowerName "Access-Control-Expose-Headers" := by
    rw [lowerName_aceh]; exact hne
  cases he : opts.exposedHeaders with
  | none => rfl
  | some sl =>
    cases sl with
    | str s =>
      by_cases hs : s == ""
      · simp only [hs, if_pos]
      · simp only [hs, Bool.false_eq_true, if_neg, not_false_iff]
        exact getValues_set_ne h _ _ n hx
    | list l =>
      by_cases hs : String.intercalate "," l == ""
      · simp only [hs, if_pos]
      · simp only [hs, Bool.false_eq_true, if_neg, not_false_iff]
        exact getValues_set_ne h _ _ n hx

/-- The methods step only ever touches `access-control-allow-methods`. -/
theorem applyMethods_getValues_ne (opts : CorsOptions) (h : Headers) (n : String)
    (hne : lowerName n ≠ "access-control-allow-methods") :
    (applyMethods opts h).getValues n = h.getValues n := by
  rw [applyMethods]
  have hx : lowerName n ≠ lowerName "Access-Control-Allow-Methods" := by
    rw [lowerName_acam]; exact hne
  cases he : opts.methods with
  | none => rfl
  | some sl =>
    cases sl with
    | str s =>
      by_cases hs : s == ""
      · simp only [hs, if_pos]
      · simp only [hs, Bool.false_eq_true, if_neg, not_false_iff]
        exact getValues_set_ne h _ _ n hx
    | list l => exact getValues_set_ne h _ _ n hx

/-- The max-age step only ever touches `access-control-max-age`. -/
theorem applyMaxAge_getValues_ne (opts : CorsOptions) (h : Headers) (n : String)
    (hne : lowerName n ≠ "access-control-max-age") :
    (applyMaxAge opts h).getValues n = h.getValues n := by
  rw [applyMaxAge]
  cases he : opts.maxAge with
  | none => rfl
  | some v => exact getValues_set_ne h _ _ n (by rw [lowerName_acma]; exact hne)

/-- Appending one value to a non-empty list extends the comma-space join. -/
theorem joinVals_append_single (l : List String) (v : String) (hne : l ≠ []) :
    joinVals (l ++ [v]) = joinVals l ++ ", " ++ v := by
  induction l with
  | nil => exact absurd rfl hne
  | cons a as ih =>
    cases as with
    | nil => rfl
    | cons b bs =>
      have := ih (by simp)
      rw [List.cons_append, joinVals, joinVals]
      · rw [this, ← String.append_assoc, ← String.append_assoc]
      · simp
      · simp

theorem lowerName_lower_acao :
    lowerName "access-control-allow-origin" = "access-control-allow-origin" := by decide

theorem lowerName_lower_acah :
    lowerName "access-control-allow-headers" = "access-control-allow-headers" := by decide

/-- Closed form of `Headers.get`. -/
theorem get_eq (h : Headers) (n : String) :
    h.get n = (if h.getValues n = [] then none else some (joinVals (h.getValues n))) := by
  rw [Headers.get]
  cases hv : h.getValues n with
  | nil => simp
  | cons a as => simp

/-- Appending under an equivalent (case-insensitive) name extends the stored
values. -/
theorem getValues_append_eq (h : Headers) (n v n' : String)
    (heq : lowerName n' = lowerName n) :
    (h.append n v).getValues n' = h.getValues n' ++ [v] := by
  obtain ⟨l⟩ := h
  simp [Headers.append, Headers.getValues, List.filter_append, heq]

/-- Inversion for a successful origin resolution. -/
theorem originHeadersFromReq_eq_some (req : Request) (origin : OriginConfig) (oh : Headers)
    (hs : originHeadersFromReq req origin = some oh) :
    oh = getOriginHeaders (reqOriginOf req) (resolveOrigin req origin) := by
  rw [originHeadersFromReq] at hs
  by_cases hf : staticOriginFalsy (resolveOrigin req origin)
  · simp [hf] at hs
  · simp [hf] at hs
    exact hs.symm

/-- The merged options always carry a success status (204 by default). -/
theorem mergeOpts_oss_isSome (options : Option CorsOptions) :
    ∃ st, (mergeOpts options).optionsSuccessStatus = some st := by
  cases options with
  | none => exact ⟨204, rfl⟩
  | some o =>
    cases ho : o.optionsSuccessStatus with
    | none => exact ⟨204, by simp [mergeOpts, orDefault, ho, defaultOptions]⟩
    | some st => exact ⟨st, by simp [mergeOpts, orDefault, ho]⟩

/-- C5: `isOriginAllowed` is a logical OR over list elements, exact
case-sensitive equality for strings, the RegExp `test` for patterns, and the
truth value for booleans. -/
theorem isOriginAllowed_spec (origin : String) (l : List OriginElem) (s : String)
    (t : String → Bool) (b : Bool) :
    (isOriginAllowed origin (StaticOrigin.list l) = true ↔
      ∃ e, e ∈ l ∧ isOriginAllowedElem origin e = true) ∧
    (isOriginAllowed origin (StaticOrigin.str s) = true ↔ origin = s) ∧
    (isOriginAllowed origin (StaticOrigin.regexp t) = t origin) ∧
    (isOriginAllowed origin (StaticOrigin.bool b) = b) ∧
    (∀ s2, isOriginAllowedElem origin (OriginElem.str s2) = true ↔ origin = s2) ∧
    (∀ t2, isOriginAllowedElem origin (OriginElem.regexp t2) = t2 origin) ∧
    (∀ b2, isOriginAllowedElem origin (OriginElem.bool b2) = b2) := by
  refine ⟨?_, ?_, rfl, rfl, ?_, fun _ => rfl, fun _ => rfl⟩
  · show l.any (isOriginAllowedElem origin) = true ↔ _
    rw [List.any_eq_true]
  · show (origin == s) = true ↔ origin = s
    exact beq_iff_eq
  · intro s2
    show (origin == s2) = true ↔ origin = s2
    exact beq_iff_eq

/-- Reduction of `getOriginHeaders` on the non-string branch. -/
theorem getOriginHeaders_not_str (ro : Option String) (o : StaticOrigin)
    (h : ∀ s, o ≠ StaticOrigin.str s) :
    getOriginHeaders ro o =
      ((if isOriginAllowed (ro.getD "") o && strOptTruthy ro then
          Headers.empty.set "Access-Control-Allow-Origin" (ro.getD "")
        else Headers.empty).append "Vary" "Origin") := by
  cases o with
  | str s => exact absurd rfl (h s)
  | bool b => rfl
  | regexp t => rfl
  | list l => rfl

/-- C2: the wildcard `*` sets `Access-Control-Allow-Origin: *` and never adds
a `Vary` entry; every other resolved origin shape appends `Origin` to `Vary`
exactly once, whether or not the match succeeded. -/
theorem getOriginHeaders_vary_spec (ro : Option String) (o : StaticOrigin) :
    ((getOriginHeaders ro (StaticOrigin.str "*")).get "Access-Control-Allow-Origin" =
        some "*" ∧
      (getOriginHeaders ro (StaticOrigin.str "*")).getValues "Vary" = []) ∧
    (o ≠ StaticOrigin.str "*" → (getOriginHeaders ro o).getValues "Vary" = ["Origin"]) := by
  have hvary : lowerName "Vary" ≠ lowerName "Access-Control-Allow-Origin" := by
    rw [lowerName_vary, lowerName_acao]
    decide
  constructor
  · constructor
    · show (Headers.empty.set "Access-Control-Allow-Origin" "*").get
          "Access-Control-Allow-Origin" = some "*"
      exact get_set_self _ _ _
    · show (Headers.empty.set "Access-Control-Allow-Origin" "*").getValues "Vary" = []
      rw [getValues_set_ne _ _ _ _ hvary]
      rfl
  · intro hne
    cases o with
    | str s =>
      have hs : (s == "*") = false := by
        rw [beq_eq_false_iff_ne]
        exact fun hx => hne (by rw [hx])
      show ((if (s == "*") = true then Headers.empty.set "Access-Control-Allow-Origin" "*"
          else (Headers.empty.set "Access-Control-Allow-Origin" s).append "Vary"
            "Origin")).getValues "Vary" = ["Origin"]
      rw [hs]
      simp only [Bool.false_eq_true, if_neg, not_false_iff]
      rw [getValues_append_self]
      rw [getValues_set_ne _ _ _ _ hvary]
      rfl
    | bool b =>
      rw [getOriginHeaders_not_str ro _ (fun s hx => StaticOrigin.noConfusion hx)]
      by_cases hc : isOriginAllowed (ro.getD "") (StaticOrigin.bool b) && strOptTruthy ro
      · rw [if_pos hc, getValues_append_self, getValues_set_ne _ _ _ _ hvary]
        rfl
      · rw [if_neg hc, getValues_append_self]
        rfl
    | regexp t =>
      rw [getOriginHeaders_not_str ro _ (fun s hx => StaticOrigin.noConfusion hx)]
      by_cases hc : isOriginAllowed (ro.getD "") (StaticOrigin.regexp t) && strOptTruthy ro
      · rw [if_pos hc, getValues_append_self, getValues_set_ne _ _ _ _ hvary]
        rfl
      · rw [if_neg hc, getValues_append_self]
        rfl
    | list l =>
      rw [getOriginHeaders_not_str ro _ (fun s hx => StaticOrigin.noConfusion hx)]
      by_cases hc : isOriginAllowed (ro.getD "") (StaticOrigin.list l) && strOptTruthy ro
      · rw [if_pos hc, getValues_append_self, getValues_set_ne _ _ _ _ hvary]
        rfl
      · rw [if_neg hc, getValues_append_self]
        rfl

/-- C9: a `*` inside a list is an ordinary string element compared with
`===`: it matches only the literal request origin `*`, and does not allow all
origins. -/
theorem wildcard_in_list_is_literal (origin : String) :
    isOriginAllowedElem origin (OriginElem.str "*") = (origin == "*") ∧
    isOriginAllowed origin (StaticOrigin.list [OriginElem.str "*"]) = (origin == "*") ∧
    isOriginAllowed "*" (StaticOrigin.list [OriginElem.str "*"]) = true ∧
    isOriginAllowed "https://example.com" (StaticOrigin.list [OriginElem.str "*"]) = false ∧
    (getOriginHeaders (some "https://example.com")
        (StaticOrigin.list [OriginElem.str "*"])).get "Access-Control-Allow-Origin" =
      none ∧
    (getOriginHeaders (some "https://example.com")
        (StaticOrigin.list [OriginElem.str "*"])).getValues "Vary" = ["Origin"] := by
  refine ⟨rfl, ?_, by decide, by decide, by decide, by decide⟩
  show ([OriginElem.str "*"].any (isOriginAllowedElem origin)) = (origin == "*")
  simp [isOriginAllowedElem]

/-- C4: an absent `allowedHeaders` reflects the request's
`Access-Control-Request-Headers` and appends it to `Vary`; an explicit empty
string or empty array yields no headers at all; an array is joined with `,`
and set when the join is non-empty. -/
theorem getAllowedHeaders_spec (req : Request) (l : List String) :
    ((getAllowedHeaders req none).getValues "Vary" =
        ["Access-Control-Request-Headers"]) ∧
    (∀ v, req.headers.get "Access-Control-Request-Headers" = some v → v ≠ "" →
      (getAllowedHeaders req none).get "Access-Control-Allow-Headers" = some v) ∧
    (getAllowedHeaders req (some (StrOrList.str "")) = Headers.empty) ∧
    (getAllowedHeaders req (some (StrOrList.list [])) = Headers.empty) ∧
    ((getAllowedHeaders req (some (StrOrList.list l))).get "Access-Control-Allow-Headers" =
      (if String.intercalate "," l == "" then none
       else some (String.intercalate "," l))) ∧
    ((getAllowedHeaders req (some (StrOrList.list l))).getValues "Vary" = []) := by
  have hvh : lowerName "Vary" ≠ lowerName "Access-Control-Allow-Headers" := by
    rw [lowerName_vary, lowerName_acah]
    decide
  refine ⟨?_, ?_, rfl, rfl, ?_, ?_⟩
  · rw [getAllowedHeaders]
    cases hg : req.headers.get "Access-Control-Request-Headers" with
    | none =>
      rw [getValues_append_self]
      rfl
    | some v =>
      show ((if (v == "") = true then
          Headers.empty.append "Vary" "Access-Control-Request-Headers"
        else (Headers.empty.append "Vary" "Access-Control-Request-Headers").set
          "Access-Control-Allow-Headers" v)).getValues "Vary" =
        ["Access-Control-Request-Headers"]
      by_cases hv : v == ""
      · rw [if_pos hv, getValues_append_self]
        rfl
      · rw [if_neg hv, getValues_set_ne _ _ _ _ hvh, getValues_append_self]
        rfl
  · intro v hg hv
    rw [getAllowedHeaders, hg]
    show ((if (v == "") = true then
        Headers.empty.append "Vary" "Access-Control-Request-Headers"
      else (Headers.empty.append "Vary" "Access-Control-Request-Headers").set
        "Access-Control-Allow-Headers" v)).get "Access-Control-Allow-Headers" = some v
    have hv2 : (v == "") = false := by
      rw [beq_eq_false_iff_ne]
      exact hv
    rw [hv2]
    simp only [Bool.false_eq_true, if_neg, not_false_iff]
    exact get_set_self _ _ _
  · rw [getAllowedHeaders]
    by_cases hs : String.intercalate "," l == ""
    · rw [if_pos hs, if_pos hs]
      rfl
    · rw [if_neg hs, if_neg hs]
      exact get_set_self _ _ _
  · rw [getAllowedHeaders]
    by_cases hs : String.intercalate "," l == ""
    · rw [if_pos hs]
      rfl
    · rw [if_neg hs]
      rw [getValues_set_ne _ _ _ _ hvh]
      rfl

/-- C7: `cors`'s merge closure appends to `vary` (comma-space-joining with
any pre-existing value) and overwrites every other header; an existing
`Vary: Foo` extended by a fixed-string origin reads back as `Foo, Origin`. -/
theorem mergeHeader_policy (hs : Headers) (v : String) :
    ((hs.getValues "Vary" = [] → (mergeHeader hs "vary" v).get "Vary" = some v) ∧
     (∀ old, hs.get "Vary" = some old →
        (mergeHeader hs "vary" v).get "Vary" = some (old ++ ", " ++ v))) ∧
    (∀ k, lowerName k = k → k ≠ "vary" →
       mergeHeader hs k v = hs.set k v ∧ (mergeHeader hs k v).get k = some v) ∧
    ((CorsResult.finalResponse resVaryFoo
        (cors reqGetA resVaryFoo (some fixedOriginOpts))).headers.get "Vary" =
      some "Foo, Origin") := by
  have hm : mergeHeader hs "vary" v = hs.append "vary" v := by
    rw [mergeHeader]
    rfl
  have hvv : lowerName "Vary" = lowerName "vary" := by
    rw [lowerName_vary, lowerName_lower_vary]
  refine ⟨⟨?_, ?_⟩, ?_, by decide⟩
  · intro hempty
    rw [hm, get_eq, getValues_append_eq _ _ _ _ hvv, hempty]
    simp [joinVals]
  · intro old hold
    rw [get_eq] at hold
    by_cases hne : hs.getValues "Vary" = []
    · rw [if_pos hne] at hold
      exact absurd hold (by simp)
    · rw [if_neg hne] at hold
      have hjoin : joinVals (hs.getValues "Vary") = old := by
        injection hold
      rw [hm, get_eq, getValues_append_eq _ _ _ _ hvv]
      have hne2 : hs.getValues "Vary" ++ [v] ≠ [] := by
        simp
      rw [if_neg hne2, joinVals_append_single _ _ hne, hjoin]
  · intro k hk hkv
    have hknv : (k == "vary") = false := by
      rw [beq_eq_false_iff_ne]
      exact hkv
    constructor
    · rw [mergeHeader, hknv]
      simp
    · rw [mergeHeader, hknv]
      simp only [Bool.false_eq_true, if_neg, not_false_iff]
      exact get_set_self _ _ _

/-- C6: the engine works on a fresh merge of the caller's configuration over
the documented defaults; in this purely functional embedding the caller's
configuration value is untouched by construction, and this theorem pins down
the merge: every caller-supplied field wins, every omitted field falls back
to the documented default. -/
theorem config_merge_spec (o : CorsOptions) :
    (∀ x, o.origin = some x → (mergeOpts (some o)).origin = some x) ∧
    (o.origin = none → (mergeOpts (some o)).origin =
      some (OriginConfig.static (StaticOrigin.str "*"))) ∧
    (∀ x, o.methods = some x → (mergeOpts (some o)).methods = some x) ∧
    (o.methods = none → (mergeOpts (some o)).methods =
      some (StrOrList.str "GET,HEAD,PUT,PATCH,POST,DELETE")) ∧
    (∀ x, o.allowedHeaders = some x → (mergeOpts (some o)).allowedHeaders = some x) ∧
    (o.allowedHeaders = none → (mergeOpts (some o)).allowedHeaders = none) ∧
    (∀ x, o.exposedHeaders = some x → (mergeOpts (some o)).exposedHeaders = some x) ∧
    (o.exposedHeaders = none → (mergeOpts (some o)).exposedHeaders = none) ∧
    (∀ x, o.credentials = some x → (mergeOpts (some o)).credentials = some x) ∧
    (o.credentials = none → (mergeOpts (some o)).credentials = none) ∧
    (∀ x, o.maxAge = some x → (mergeOpts (some o)).maxAge = some x) ∧
    (o.maxAge = none → (mergeOpts (some o)).maxAge = none) ∧
    (∀ x, o.preflightContinue = some x → (mergeOpts (some o)).preflightContinue = some x) ∧
    (o.preflightContinue = none → (mergeOpts (some o)).preflightContinue = some false) ∧
    (∀ x, o.optionsSuccessStatus = some x →
      (mergeOpts (some o)).optionsSuccessStatus = some x) ∧
    (o.optionsSuccessStatus = none → (mergeOpts (some o)).optionsSuccessStatus = some 204) ∧
    (mergeOpts none = defaultOptions) := by
  refine ⟨?_, ?_, ?_, ?_, ?_, ?_, ?_, ?_, ?_, ?_, ?_, ?_, ?_, ?_, ?_, ?_, rfl⟩ <;>
    first
    | (intro x hx
       simp [mergeOpts, orDefault, defaultOptions, hx])
    | (intro hx
       simp [mergeOpts, orDefault, defaultOptions, hx])

/-- C3: when the resolved origin value is falsy, `cors` hands back the very
response object it was given, with headers, status and body untouched. -/
theorem cors_falsy_origin_untouched (req : Request) (res : Response)
    (options : Option CorsOptions)
    (hf : staticOriginFalsy (resolveOrigin req
      ((mergeOpts options).origin.getD
        (OriginConfig.static (StaticOrigin.bool false)))) = true) :
    cors req res options = CorsResult.sameRes res.headers ∧
    CorsResult.finalResponse res (cors req res options) = res := by
  have hnone : originHeadersFromReq req
      ((mergeOpts options).origin.getD (OriginConfig.static (StaticOrigin.bool false))) =
      none := by
    rw [originHeadersFromReq]
    simp [hf]
  constructor
  · rw [cors, corsMerged, hnone]
  · rw [cors, corsMerged, hnone]
    rfl

/-- Shape of `corsMerged` on a non-preflight request with resolved origin
headers. -/
theorem corsMerged_shape_normal (req : Request) (res : Response) (opts : CorsOptions)
    (oh : Headers)
    (hoh : originHeadersFromReq req
      (opts.origin.getD (OriginConfig.static (StaticOrigin.bool false))) = some oh)
    (hm : req.method ≠ "OPTIONS") :
    corsMerged req res opts = CorsResult.sameRes (corsBaseHeaders res opts oh) := by
  have hmb : (req.method == "OPTIONS") = false := by
    rw [beq_eq_false_iff_ne]
    exact hm
  rw [corsMerged, hoh, hmb]
  rfl

/-- Shape of `corsMerged` on a preflight request with resolved origin
headers. -/
theorem corsMerged_shape_preflight (req : Request) (res : Response) (opts : CorsOptions)
    (oh : Headers)
    (hoh : originHeadersFromReq req
      (opts.origin.getD (OriginConfig.static (StaticOrigin.bool false))) = some oh)
    (hm : req.method = "OPTIONS") :
    corsMerged req res opts =
      (if opts.preflightContinue.getD false then
        CorsResult.sameRes (corsPreflightHeaders req res opts oh)
      else
        CorsResult.newRes (opts.optionsSuccessStatus.getD 200)
          ((corsPreflightHeaders req res opts oh).set "Content-Length" "0")) := by
  rw [corsMerged, hoh, hm]
  rfl

/-- C1: a preflight request with resolved origin headers ends in exactly one
of two ways: with `preflightContinue` the very same response object (headers
mutated in place, status and body untouched) is returned; otherwise a new
response is constructed with the configured success status, the accumulated
headers with `Content-Length: 0`, and an empty body. -/
theorem cors_preflight_terminal (req : Request) (res : Response)
    (options : Option CorsOptions) (hm : req.method = "OPTIONS")
    (hoh : (originHeadersFromReq req
      ((mergeOpts options).origin.getD
        (OriginConfig.static (StaticOrigin.bool false)))).isSome = true) :
    ((mergeOpts options).preflightContinue.getD false = true →
      (∃ h, cors req res options = CorsResult.sameRes h) ∧
      (CorsResult.finalResponse res (cors req res options)).status = res.status ∧
      (CorsResult.finalResponse res (cors req res options)).body = res.body) ∧
    ((mergeOpts options).preflightContinue.getD false = false →
      ∃ (st : Int) (h : Headers),
        cors req res options = CorsResult.newRes st (h.set "Content-Length" "0") ∧
        (mergeOpts options).optionsSuccessStatus = some st ∧
        (CorsResult.finalResponse res (cors req res options)).status = st ∧
        (CorsResult.finalResponse res (cors req res options)).body = none ∧
        (CorsResult.finalResponse res (cors req res options)).headers.get
          "Content-Length" = some "0") := by
  obtain ⟨oh, hoh2⟩ := Option.isSome_iff_exists.mp hoh
  obtain ⟨st, hst⟩ := mergeOpts_oss_isSome options
  have hshape := corsMerged_shape_preflight req res (mergeOpts options) oh hoh2 hm
  constructor
  · intro hpf
    rw [cors, hshape, hpf, if_pos rfl]
    exact ⟨⟨_, rfl⟩, rfl, rfl⟩
  · intro hpf
    rw [cors, hshape, hpf]
    simp only [Bool.false_eq_true, if_neg, not_false_iff, hst, Option.getD_some]
    refine ⟨st, corsPreflightHeaders req res (mergeOpts options) oh, rfl, rfl, rfl, rfl, ?_⟩
    show ((corsPreflightHeaders req res (mergeOpts options) oh).set
      "Content-Length" "0").get "Content-Length" = some "0"
    exact get_set_self _ _ _

theorem applyMaxAge_none (opts : CorsOptions) (h : Headers) (hma : opts.maxAge = none) :
    applyMaxAge opts h = h := by
  rw [applyMaxAge, hma]

theorem applyMaxAge_some (opts : CorsOptions) (h : Headers) (n : Int)
    (hma : opts.maxAge = some n) :
    applyMaxAge opts h = h.set "Access-Control-Max-Age" (toString n) := by
  rw [applyMaxAge, hma]

theorem get_of_getValues_single (h : Headers) (n v : String)
    (hx : h.getValues n = [v]) : h.get n = some v := by
  rw [get_eq, hx]
  simp [joinVals]

/-- The base pipeline only touches the four origin-phase headers. -/
theorem corsBaseHeaders_getValues_ne (res : Response) (opts : CorsOptions) (oh : Headers)
    (n : String)
    (hkeys : ∀ e ∈ oh.entries, e.1 = "access-control-allow-origin" ∨ e.1 = "vary")
    (h1 : lowerName n ≠ "access-control-allow-origin") (h2 : lowerName n ≠ "vary")
    (h3 : lowerName n ≠ "access-control-allow-credentials")
    (h4 : lowerName n ≠ "access-control-expose-headers") :
    (corsBaseHeaders res opts oh).getValues n = res.headers.getValues n := by
  have hk : ∀ e ∈ oh.entries, lowerName n ≠ lowerName e.1 := by
    intro e he
    rcases hkeys e he with hx | hx <;> rw [hx]
    · rw [lowerName_lower_acao]
      exact h1
    · rw [lowerName_lower_vary]
      exact h2
  rw [corsBaseHeaders, applyExposed_getValues_ne _ _ _ h4,
    applyCredentials_getValues_ne _ _ _ h3, mergeHeaderList_getValues_ne _ _ _ hk]

/-- C10: a non-preflight request always gets back the same response object,
with status and body untouched; every header outside the four origin-phase
names keeps exactly its previous values, so the method/allowed-headers/
max-age/content-length headers are never set. -/
theorem cors_normal_request_frame (req : Request) (res : Response)
    (options : Option CorsOptions) (hm : req.method ≠ "OPTIONS") :
    (∃ h, cors req res options = CorsResult.sameRes h) ∧
    (CorsResult.finalResponse res (cors req res options)).status = res.status ∧
    (CorsResult.finalResponse res (cors req res options)).body = res.body ∧
    (∀ n, lowerName n ≠ "access-control-allow-origin" → lowerName n ≠ "vary" →
      lowerName n ≠ "access-control-allow-credentials" →
      lowerName n ≠ "access-control-expose-headers" →
      (CorsResult.finalResponse res (cors req res options)).headers.getValues n =
        res.headers.getValues n) := by
  cases hoh : originHeadersFromReq req
      ((mergeOpts options).origin.getD (OriginConfig.static (StaticOrigin.bool false))) with
  | none =>
    have hc : cors req res options = CorsResult.sameRes res.headers := by
      rw [cors, corsMerged, hoh]
    rw [hc]
    exact ⟨⟨_, rfl⟩, rfl, rfl, fun n _ _ _ _ => rfl⟩
  | some oh =>
    have hje := originHeadersFromReq_eq_some req _ oh hoh
    have hkeys : ∀ e ∈ oh.entries, e.1 = "access-control-allow-origin" ∨ e.1 = "vary" := by
      rw [hje]
      exact getOriginHeaders_keys _ _
    have hc : cors req res options =
        CorsResult.sameRes (corsBaseHeaders res (mergeOpts options) oh) := by
      rw [cors]
      exact corsMerged_shape_normal req res (mergeOpts options) oh hoh hm
    rw [hc]
    refine ⟨⟨_, rfl⟩, rfl, rfl, ?_⟩
    intro n h1 h2 h3 h4
    show (corsBaseHeaders res (mergeOpts options) oh).getValues n =
      res.headers.getValues n
    exact corsBaseHeaders_getValues_ne res (mergeOpts options) oh n hkeys h1 h2 h3 h4

/-- C8: on a preflight request with resolved origin headers,
`Access-Control-Max-Age` is set to the decimal string of `maxAge` whenever
`maxAge` is a number (including 0), and left exactly as it was on the
response when `maxAge` is absent. -/
theorem cors_maxAge_spec (req : Request) (res : Response) (options : Option CorsOptions)
    (hm : req.method = "OPTIONS")
    (hoh : (originHeadersFromReq req
      ((mergeOpts options).origin.getD
        (OriginConfig.static (StaticOrigin.bool false)))).isSome = true) :
    (∀ n : Int, (mergeOpts options).maxAge = some n →
      (CorsResult.finalResponse res (cors req res options)).headers.get
        "Access-Control-Max-Age" = some (toString n)) ∧
    ((mergeOpts options).maxAge = none →
      (CorsResult.finalResponse res (cors req res options)).headers.getValues
        "Access-Control-Max-Age" =
        res.headers.getValues "Access-Control-Max-Age") := by
  obtain ⟨oh, hoh2⟩ := Option.isSome_iff_exists.mp hoh
  have hje := originHeadersFromReq_eq_some req _ oh hoh2
  have hkeys : ∀ e ∈ oh.entries, e.1 = "access-control-allow-origin" ∨ e.1 = "vary" := by
    rw [hje]
    exact getOriginHeaders_keys _ _
  have hshape := corsMerged_shape_preflight req res (mergeOpts options) oh hoh2 hm
  have hclne : lowerName "Access-Control-Max-Age" ≠ lowerName "Content-Length" := by
    rw [lowerName_acma, lowerName_cl]
    decide
  have hfinal : (CorsResult.finalResponse res (cors req res options)).headers.getValues
      "Access-Control-Max-Age" =
      (corsPreflightHeaders req res (mergeOpts options) oh).getValues
        "Access-Control-Max-Age" := by
    rw [cors, hshape]
    by_cases hpf : (mergeOpts options).preflightContinue.getD false
    · rw [if_pos hpf]
      rfl
    · rw [if_neg hpf]
      show ((corsPreflightHeaders req res (mergeOpts options) oh).set
        "Content-Length" "0").getValues "Access-Control-Max-Age" = _
      exact getValues_set_ne _ _ _ _ hclne
  constructor
  · intro n hma
    have hset : corsPreflightHeaders req res (mergeOpts options) oh =
        (mergeHeaderList (applyMethods (mergeOpts options)
            (corsBaseHeaders res (mergeOpts options) oh))
          (getAllowedHeaders req (mergeOpts options).allowedHeaders).entries).set
          "Access-Control-Max-Age" (toString n) := by
      rw [corsPreflightHeaders, applyMaxAge_some _ _ n hma]
    have hv : (CorsResult.finalResponse res (cors req res options)).headers.getValues
        "Access-Control-Max-Age" = [toString n] := by
      rw [hfinal, hset, getValues_set_self]
    exact get_of_getValues_single _ _ _ hv
  · intro hma
    have hid : corsPreflightHeaders req res (mergeOpts options) oh =
        mergeHeaderList (applyMethods (mergeOpts options)
            (corsBaseHeaders res (mergeOpts options) oh))
          (getAllowedHeaders req (mergeOpts options).allowedHeaders).entries := by
      rw [corsPreflightHeaders, applyMaxAge_none _ _ hma]
    have hak : ∀ e ∈ (getAllowedHeaders req (mergeOpts options).allowedHeaders).entries,
        lowerName "Access-Control-Max-Age" ≠ lowerName e.1 := by
      intro e he
      rcases getAllowedHeaders_keys req _ e he with hx | hx <;> rw [hx]
      · rw [lowerName_acma, lowerName_lower_vary]
        decide
      · rw [lowerName_acma, lowerName_lower_acah]
        decide
    rw [hfinal, hid, mergeHeaderList_getValues_ne _ _ _ hak,
      applyMethods_getValues_ne _ _ _ (by rw [lowerName_acma]; decide)]
    exact corsBaseHeaders_getValues_ne res (mergeOpts options) oh _ hkeys
      (by rw [lowerName_acma]; decide) (by rw [lowerName_acma]; decide)
      (by rw [lowerName_acma]; decide) (by rw [lowerName_acma]; decide)

/-- Closed instance of `cors_preflight_terminal`: a default-configured
preflight yields a new 204 response with `Content-Length: 0`. -/
theorem cors_preflight_terminal_witness :
    (mergeOpts none).preflightContinue.getD false = false ∧
    (∃ (st : Int) (h : Headers),
      cors reqOptionsPlain resPlain none =
        CorsResult.newRes st (h.set "Content-Length" "0") ∧
      (mergeOpts none).optionsSuccessStatus = some st ∧
      (CorsResult.finalResponse resPlain (cors reqOptionsPlain resPlain none)).status = st ∧
      (CorsResult.finalResponse resPlain (cors reqOptionsPlain resPlain none)).body = none ∧
      (CorsResult.finalResponse resPlain (cors reqOptionsPlain resPlain none)).headers.get
        "Content-Length" = some "0") :=
  ⟨by decide,
    (cors_preflight_terminal reqOptionsPlain resPlain none rfl (by decide)).2 (by decide)⟩

/-- Closed instance of `getOriginHeaders_vary_spec`: a boolean origin appends
`Vary: Origin`, the wildcard does not. -/
theorem getOriginHeaders_vary_spec_witness :
    (getOriginHeaders (some "https://a.com") (StaticOrigin.bool true)).getValues "Vary" =
      ["Origin"] ∧
    (getOriginHeaders (some "https://a.com") (StaticOrigin.str "*")).getValues "Vary" =
      [] :=
  ⟨(getOriginHeaders_vary_spec (some "https://a.com") (StaticOrigin.bool true)).2
      (fun hx => StaticOrigin.noConfusion hx),
    (getOriginHeaders_vary_spec (some "https://a.com") (StaticOrigin.bool true)).1.2⟩

/-- Closed instance of `cors_falsy_origin_untouched`: `origin: false` leaves
the response untouched. -/
theorem cors_falsy_origin_untouched_witness :
    cors reqGetA resVaryFoo (some falsyOriginOpts) =
      CorsResult.sameRes resVaryFoo.headers ∧
    CorsResult.finalResponse resVaryFoo (cors reqGetA resVaryFoo (some falsyOriginOpts)) =
      resVaryFoo :=
  cors_falsy_origin_untouched reqGetA resVaryFoo (some falsyOriginOpts) (by decide)

/-- Closed instance of `getAllowedHeaders_spec`: an absent `allowedHeaders`
reflects the requested headers. -/
theorem getAllowedHeaders_spec_witness :
    (getAllowedHeaders reqAcrh none).get "Access-Control-Allow-Headers" = some "X-Foo" :=
  (getAllowedHeaders_spec reqAcrh ["a", "b"]).2.1 "X-Foo" (by decide) (by decide)

/-- Closed instance of `config_merge_spec`: caller fields win, defaults fill
the rest. -/
theorem config_merge_spec_witness :
    (mergeOpts (some maxAgeOpts)).maxAge = some 600 ∧
    (mergeOpts (some maxAgeOpts)).preflightContinue = some false ∧
    (mergeOpts (some maxAgeOpts)).origin =
      some (OriginConfig.static (StaticOrigin.str "*")) ∧
    mergeOpts none = defaultOptions := by
  obtain ⟨ho1, ho2, hm1, hm2, ha1, ha2, he1, he2, hc1, hc2, hx1, hx2, hp1, hp2, hs1,
    hs2, hn⟩ := config_merge_spec maxAgeOpts
  exact ⟨hx1 600 rfl, hp2 rfl, ho2 rfl, hn⟩

/-- Closed instance of `mergeHeader_policy`: appending `Origin` to an
existing `Vary: Foo` reads back comma-space joined. -/
theorem mergeHeader_policy_witness :
    (mergeHeader (Headers.empty.set "Vary" "Foo") "vary" "Origin").get "Vary" =
      some ("Foo" ++ ", " ++ "Origin") :=
  (mergeHeader_policy (Headers.empty.set "Vary" "Foo") "Origin").1.2 "Foo" (by decide)

/-- Closed instance of `cors_maxAge_spec`: `maxAge: 0` writes the header
value `0`. -/
theorem cors_maxAge_spec_witness :
    (CorsResult.finalResponse resPlain
      (cors reqOptionsPlain resPlain (some maxAgeZeroOpts))).headers.get
      "Access-Control-Max-Age" = some "0" :=
  (cors_maxAge_spec reqOptionsPlain resPlain (some maxAgeZeroOpts) rfl (by decide)).1 0
    (by decide)

/-- Closed instance of `cors_normal_request_frame`: a GET request keeps its
response object and its non-origin-phase headers. -/
theorem cors_normal_request_frame_witness :
    (∃ h, cors reqGetA resVaryFoo none = CorsResult.sameRes h) ∧
    (CorsResult.finalResponse resVaryFoo (cors reqGetA resVaryFoo none)).headers.getValues
        "Access-Control-Allow-Methods" =
      resVaryFoo.headers.getValues "Access-Control-Allow-Methods" := by
  have h := cors_normal_request_frame reqGetA resVaryFoo none (by decide)
  exact ⟨h.1, h.2.2.2 "Access-Control-Allow-Methods" (by decide) (by decide) (by decide)
    (by decide)⟩

end EdgeCors
